import Mathlib

set_option autoImplicit false

/-!
Shallow embedding of `src/consumers/json_consumer_schroder.py`: a Kafka
consumer that coerces each record payload to a JSON mapping, extracts and
normalizes one categorical field, tallies category frequencies in a
`defaultdict(int)`, and recomputes pie-chart slices (collapsing small
slices into an "other" bucket) after each message.

Python values flowing through the pipeline are modelled by `JsonVal`;
the frequency table (an insertion-ordered dict) by an association list
`Counts`; `json.loads` is an external library call, so a textual payload
is identified by its parse outcome (`Option JsonVal`, `none` being
`json.JSONDecodeError`).  The float threshold `0.05` is modelled as the
rational `1/20`; exceptions caught inside the Python functions are
modelled by the branches the `except` handlers produce.
-/

namespace Buzzline

/-- A JSON value as produced by `json.loads` (object member order is the
textual order, as in Python dicts). -/
inductive JsonVal where
  | jnull
  | jbool (b : Bool)
  | jnum (n : Int)
  | jstr (s : String)
  | jarr (elems : List JsonVal)
  | jobj (fields : List (String × JsonVal))
deriving Repr, BEq

/-- `str.strip()` on the underlying character list: drop leading and
trailing whitespace. -/
def strippedChars (s : String) : List Char :=
  ((s.data.dropWhile Char.isWhitespace).reverse.dropWhile Char.isWhitespace).reverse

/-- Python `str.strip()`. -/
def pyStrip (s : String) : String := ⟨strippedChars s⟩

/-- Python `str.lower()`. -/
def pyLower (s : String) : String := ⟨s.data.map Char.toLower⟩

mutual
/-- Python `repr` of a JSON-shaped value (string escaping elided:
the claims never inspect the repr of a string). -/
def pyRepr : JsonVal → String
  | .jnull => "None"
  | .jbool true => "True"
  | .jbool false => "False"
  | .jnum n => toString n
  | .jstr s => "\x27" ++ s ++ "\x27"
  | .jarr elems => "[" ++ pyReprList elems ++ "]"
  | .jobj fields => "\x7b" ++ pyReprFields fields ++ "\x7d"

/-- Comma-separated reprs of list elements. -/
def pyReprList : List JsonVal → String
  | [] => ""
  | [v] => pyRepr v
  | v :: rest => pyRepr v ++ ", " ++ pyReprList rest

/-- Comma-separated reprs of dict entries. -/
def pyReprFields : List (String × JsonVal) → String
  | [] => ""
  | [kv] => "\x27" ++ kv.1 ++ "\x27: " ++ pyRepr kv.2
  | kv :: rest => "\x27" ++ kv.1 ++ "\x27: " ++ pyRepr kv.2 ++ ", " ++ pyReprFields rest
end

/-- Python `str(x)`: a string passes through, everything else goes
through `repr`-style printing. -/
def pyStr : JsonVal → String
  | .jstr s => s
  | v => pyRepr v

/-- Python truthiness (`bool(x)`) of a JSON-shaped value, used by
`if not msg:` in `process_message`. -/
def pyTruthy : JsonVal → Bool
  | .jnull => false
  | .jbool b => b
  | .jnum n => n != 0
  | .jstr s => s != ""
  | .jarr elems => !elems.isEmpty
  | .jobj fields => !fields.isEmpty

/-- Python `dict.get(key)` without default: first (unique) matching key. -/
def dictGet : List (String × JsonVal) → String → Option JsonVal
  | [], _ => none
  | kv :: rest, key => if kv.1 = key then some kv.2 else dictGet rest key

/-- A raw Kafka record value as seen by `_coerce_to_dict`.  `bytes` are
decoded as UTF-8 with `errors="replace"` (which never fails) and then
parsed, so both textual and binary payloads are identified by their
`json.loads` outcome; `punsupported` covers every other Python type. -/
inductive Payload where
  | pdict (fields : List (String × JsonVal))
  | ptext (parsed : Option JsonVal)
  | pbytes (parsed : Option JsonVal)
  | punsupported
deriving Repr

/-- `_coerce_to_dict` (lines 116-137): dict passes through, bytes are
decoded then parsed, str is parsed; any other type, or a
`json.JSONDecodeError`, yields `None`.  NOTE: the Python code returns
`json.loads(payload)` without checking that the parse produced a dict,
so a textual payload parsing to a list or number is returned as-is,
despite the function's declared `dict | None` return type. -/
def coerce_to_dict : Payload → Option JsonVal
  | .pdict fields => some (.jobj fields)
  | .ptext parsed => parsed
  | .pbytes parsed => parsed
  | .punsupported => none

/-- Lines 150-154 of `process_message`: normalize the raw field value to
a category key.  A string is stripped and lower-cased, with `"unknown"`
replacing an empty result; `None` becomes `"unknown"`; any other value
becomes `str(raw)`. -/
def normalize_category : JsonVal → String
  | .jstr s =>
      let c := pyLower (pyStrip s)
      if c = "" then "unknown" else c
  | .jnull => "unknown"
  | v => pyStr v

/-- `msg.get(CATEGORY_FIELD, "unknown")` followed by normalization: the
category key extracted from one event. -/
def extract_category (field : String) (fields : List (String × JsonVal)) : String :=
  normalize_category ((dictGet fields field).getD (.jstr "unknown"))

/-- The frequency table `category_counts`: a `defaultdict(int)` modelled
as an insertion-ordered association list with unique keys. -/
abbrev Counts := List (String × Nat)

/-- `category_counts[cat] += 1` on a `defaultdict(int)`: bump an existing
key in place, or append the key with count 1. -/
def incr : Counts → String → Counts
  | [], cat => [(cat, 1)]
  | kv :: rest, cat =>
      if kv.1 = cat then (kv.1, kv.2 + 1) :: rest else kv :: incr rest cat

/-- `category_counts[k]` on a `defaultdict(int)`: 0 when absent. -/
def lookupCount : Counts → String → Nat
  | [], _ => 0
  | kv :: rest, key => if kv.1 = key then kv.2 else lookupCount rest key

/-- `process_message` (lines 139-162) restricted to its effect on the
frequency table.  A `None` or falsy coercion result returns early; a
truthy dict gets its category incremented; a truthy non-dict raises
`AttributeError` at `msg.get`, which the `except` block catches, leaving
the table unchanged.  (The chart redraw does not touch the table.) -/
def process_message (field : String) (payload : Payload) (counts : Counts) : Counts :=
  match coerce_to_dict payload with
  | none => counts
  | some msg =>
    if pyTruthy msg then
      match msg with
      | .jobj fields => incr counts (extract_category field fields)
      | _ => counts
    else counts

/-- Stable insertion of a pair into a count-descending list: walk past
strictly larger counts, so that among equal counts the earlier element
stays first. -/
def insertDesc (p : String × Nat) : List (String × Nat) → List (String × Nat)
  | [] => [p]
  | q :: rest => if p.2 < q.2 then q :: insertDesc p rest else p :: q :: rest

/-- Python `sorted(zip(labels, sizes), key=lambda p: p[1], reverse=True)`:
a stable sort by count, largest first. -/
def sortDesc : List (String × Nat) → List (String × Nat)
  | [] => []
  | p :: rest => insertDesc p (sortDesc rest)

/-- `total = sum(sizes) or 1`: the (rational) denominator of a share. -/
def collapse_total (sizes : List Nat) : ℚ :=
  if sizes.sum = 0 then 1 else (sizes.sum : ℚ)

/-- One iteration of `_collapse_small`'s loop over the sorted pairs:
state is (keep_labs, keep_sizes, other). -/
def collapse_step (total min_share : ℚ) (st : List String × List Nat × Nat)
    (p : String × Nat) : List String × List Nat × Nat :=
  if (p.2 : ℚ) / total < min_share ∧ 2 ≤ st.1.length then
    (st.1, st.2.1, st.2.2 + p.2)
  else
    (st.1 ++ [p.1], st.2.1 ++ [p.2], st.2.2)

/-- `_collapse_small` (lines 76-91): sort slices largest first, keep a
slice when its share is at least `min_share` or fewer than 2 slices are
kept so far, accumulate the rest into `other`, appended last when
non-zero. -/
def collapse_small (labels : List String) (sizes : List Nat) (min_share : ℚ) :
    List String × List Nat :=
  let total := collapse_total sizes
  let walk := (sortDesc (labels.zip sizes)).foldl (collapse_step total min_share)
    ([], [], 0)
  if 0 < walk.2.2 then (walk.1 ++ ["other"], walk.2.1 ++ [walk.2.2])
  else (walk.1, walk.2.1)

/-- `update_chart` (lines 93-111) restricted to the labels/sizes it
renders: an empty table draws the `("waiting", 1)` placeholder, otherwise
the table's entries (insertion order) are collapsed with `min_share=0.05`. -/
def update_chart_slices (counts : Counts) : List String × List Nat :=
  if counts.isEmpty then (["waiting"], [1])
  else collapse_small (counts.map Prod.fst) (counts.map Prod.snd) (1 / 20)

/-! ### Helper lemmas -/

lemma insertDesc_snd_sum (p : String × Nat) (l : List (String × Nat)) :
    ((insertDesc p l).map Prod.snd).sum = p.2 + (l.map Prod.snd).sum := by
  induction l with
  | nil => simp [insertDesc]
  | cons q rest ih =>
    by_cases h : p.2 < q.2
    · simp only [insertDesc, if_pos h, List.map_cons, List.sum_cons, ih]
      omega
    · simp only [insertDesc, if_neg h, List.map_cons, List.sum_cons]

lemma sortDesc_snd_sum (l : List (String × Nat)) :
    ((sortDesc l).map Prod.snd).sum = (l.map Prod.snd).sum := by
  induction l with
  | nil => rfl
  | cons p rest ih => simp [sortDesc, insertDesc_snd_sum, ih]

lemma collapse_walk_sum (t m : ℚ) (l : List (String × Nat)) :
    ∀ labs szs oth,
      (List.foldl (collapse_step t m) (labs, szs, oth) l).2.1.sum
          + (List.foldl (collapse_step t m) (labs, szs, oth) l).2.2
        = szs.sum + oth + (l.map Prod.snd).sum := by
  induction l with
  | nil => intro labs szs oth; simp
  | cons p rest ih =>
    intro labs szs oth
    rw [List.foldl_cons]
    by_cases hc : (p.2 : ℚ) / t < m ∧ 2 ≤ labs.length
    · rw [show collapse_step t m (labs, szs, oth) p = (labs, szs, oth + p.2) from
        if_pos hc]
      rw [ih]
      simp only [List.map_cons, List.sum_cons]
      omega
    · rw [show collapse_step t m (labs, szs, oth) p
          = (labs ++ [p.1], szs ++ [p.2], oth) from if_neg hc]
      rw [ih]
      simp only [List.map_cons, List.sum_cons, List.sum_append, List.sum_nil]
      omega

end Buzzline

namespace Buzzline

/-! ### Claim theorems -/

/-- C1: on the table `\x7b"sports": 90, "politics": 3, "tech": 7\x7d` with
threshold 0.05, collapsing keeps "sports" and "tech" and folds "politics"
into "other", producing exactly `[("sports",90), ("tech",7), ("other",3)]`. -/
theorem collapse_small_scenario :
    collapse_small ["sports", "politics", "tech"] [90, 3, 7] (1 / 20)
      = (["sports", "tech", "other"], [90, 7, 3]) := by
  norm_num [collapse_small, collapse_step, collapse_total, sortDesc, insertDesc]

/-- C2: for every list of (label, size) pairs with non-negative integer
sizes, the sum of the display slice sizes returned by `collapse_small`
(including "other" when present) equals the sum of the input sizes. -/
theorem collapse_small_preserves_sum (labels : List String) (sizes : List Nat)
    (m : ℚ) (h : labels.length = sizes.length) :
    (collapse_small labels sizes m).2.sum = sizes.sum := by
  have hzip : (labels.zip sizes).map Prod.snd = sizes :=
    List.map_snd_zip labels sizes (le_of_eq h.symm)
  have hsort : ((sortDesc (labels.zip sizes)).map Prod.snd).sum = sizes.sum := by
    rw [sortDesc_snd_sum, hzip]
  have hwalk := collapse_walk_sum (collapse_total sizes) m
      (sortDesc (labels.zip sizes)) [] [] 0
  rw [hsort] at hwalk
  simp only [List.sum_nil] at hwalk
  simp only [collapse_small]
  split
  · dsimp only
    simp only [List.sum_append, List.sum_cons, List.sum_nil]
    omega
  · dsimp only
    omega

/-- Witness for C2 at a concrete table. -/
theorem collapse_small_preserves_sum_witness :
    (collapse_small ["a", "b", "c"] [8, 1, 1] (1 / 20)).2.sum
      = ([8, 1, 1] : List Nat).sum :=
  collapse_small_preserves_sum ["a", "b", "c"] [8, 1, 1] (1 / 20) rfl

/-- C4: a table of exactly two categories, each with share of the total
strictly below the threshold, keeps both categories individually (in
count-descending order) and produces no "other" slice. -/
theorem collapse_small_two_below (a b : String) (x y : Nat) (m : ℚ)
    (_hx : (x : ℚ) / collapse_total [x, y] < m)
    (_hy : (y : ℚ) / collapse_total [x, y] < m) :
    collapse_small [a, b] [x, y] m
      = if x < y then ([b, a], [y, x]) else ([a, b], [x, y]) := by
  by_cases hxy : x < y <;>
    simp [collapse_small, sortDesc, insertDesc, collapse_step, hxy]

/-- Witness for C4: two categories of share 1/2 each, threshold 1. -/
theorem collapse_small_two_below_witness :
    collapse_small ["a", "b"] [1, 1] 1 = (["a", "b"], [1, 1]) := by
  have h := collapse_small_two_below "a" "b" 1 1 1
    (by norm_num [collapse_total]) (by norm_num [collapse_total])
  simpa using h

/-- C5: the empty frequency table renders exactly one slice
`("waiting", 1)`. -/
theorem update_chart_waiting :
    update_chart_slices [] = (["waiting"], [1]) := rfl

end Buzzline

namespace Buzzline

/-- C6: the extractor returns "unknown" when the configured field is
absent, when its value is JSON null, and when its value is a string that
strips to empty. -/
theorem extract_category_unknown (field : String) (fields : List (String × JsonVal))
    (h : dictGet fields field = none
        ∨ dictGet fields field = some .jnull
        ∨ ∃ s, dictGet fields field = some (.jstr s) ∧ pyStrip s = "") :
    extract_category field fields = "unknown" := by
  unfold extract_category
  rcases h with h | h | ⟨s, h, hs⟩
  · rw [h]; rfl
  · rw [h]; rfl
  · rw [h]
    simp only [Option.getD_some, normalize_category]
    rw [hs]
    rfl

/-- Witness for C6: a null-valued field maps to "unknown". -/
theorem extract_category_unknown_witness :
    extract_category "category" [("category", JsonVal.jnull)] = "unknown" :=
  extract_category_unknown "category" [("category", JsonVal.jnull)]
    (Or.inr (Or.inl rfl))

/-- The two characters are the same letter up to case. -/
def charCaseEq (c d : Char) : Prop := c.toLower = d.toLower

instance charCaseEq.decidable (c d : Char) : Decidable (charCaseEq c d) :=
  inferInstanceAs (Decidable (c.toLower = d.toLower))

/-- `s` and `t` differ only in letter case and in leading/trailing
whitespace: after stripping, their characters correspond one to one up
to case. -/
def caseWsVariant (s t : String) : Prop :=
  List.Forall₂ charCaseEq (strippedChars s) (strippedChars t)

/-- C7: two textual field values that differ only in letter case and in
leading/trailing whitespace normalize to the same category key; in
particular "Cats ", "cats" and " CATS" all map to "cats". -/
theorem extract_category_case_ws_invariant :
    (∀ s t, caseWsVariant s t →
        normalize_category (.jstr s) = normalize_category (.jstr t))
      ∧ normalize_category (.jstr "Cats ") = "cats"
      ∧ normalize_category (.jstr "cats") = "cats"
      ∧ normalize_category (.jstr " CATS") = "cats" := by
  refine ⟨?_, rfl, rfl, rfl⟩
  intro s t h
  have hmap : ∀ (l₁ l₂ : List Char), List.Forall₂ charCaseEq l₁ l₂ →
      l₁.map Char.toLower = l₂.map Char.toLower := by
    intro l₁ l₂ hf
    induction hf with
    | nil => rfl
    | cons hcd _ ih => simp only [List.map_cons, List.cons.injEq]; exact ⟨hcd, ih⟩
  have hl : pyLower (pyStrip s) = pyLower (pyStrip t) :=
    congrArg String.mk (hmap _ _ h)
  simp only [normalize_category]
  rw [hl]

/-- Witness for C7 at two concrete case/whitespace variants. -/
theorem extract_category_case_ws_invariant_witness :
    normalize_category (.jstr "Cats ") = normalize_category (.jstr " CATS") :=
  extract_category_case_ws_invariant.1 "Cats " " CATS"
    (.cons (by decide) (.cons (by decide) (.cons (by decide)
      (.cons (by decide) .nil))))

lemma lookupCount_incr_self (counts : Counts) (cat : String) :
    lookupCount (incr counts cat) cat = lookupCount counts cat + 1 := by
  induction counts with
  | nil => simp [incr, lookupCount]
  | cons kv rest ih =>
    by_cases h : kv.1 = cat
    · simp [incr, lookupCount, h]
    · simp [incr, lookupCount, h, ih]

lemma lookupCount_incr_other (counts : Counts) (cat k : String) (hk : k ≠ cat) :
    lookupCount (incr counts cat) k = lookupCount counts k := by
  have hck : ¬ (cat = k) := fun hc => hk hc.symm
  induction counts with
  | nil => simp [incr, lookupCount, hck]
  | cons kv rest ih =>
    by_cases h : kv.1 = cat
    · simp [incr, lookupCount, h, hck]
    · by_cases h2 : kv.1 = k
      · simp [incr, lookupCount, h, h2, hk]
      · simp [incr, lookupCount, h, h2, ih]

/-- C8: processing a payload that normalizes to a non-empty mapping
increments the extracted category's count by exactly 1 and leaves every
other category's count unchanged. -/
theorem process_message_increments (field : String) (payload : Payload)
    (fields : List (String × JsonVal)) (counts : Counts)
    (h1 : coerce_to_dict payload = some (.jobj fields)) (h2 : fields ≠ []) :
    lookupCount (process_message field payload counts) (extract_category field fields)
        = lookupCount counts (extract_category field fields) + 1
      ∧ ∀ k, k ≠ extract_category field fields →
          lookupCount (process_message field payload counts) k
            = lookupCount counts k := by
  have hp : process_message field payload counts
      = incr counts (extract_category field fields) := by
    cases fields with
    | nil => exact absurd rfl h2
    | cons f fs =>
      unfold process_message
      rw [h1]
      simp [pyTruthy]
  rw [hp]
  exact ⟨lookupCount_incr_self counts _,
    fun k hk => lookupCount_incr_other counts _ k hk⟩

/-- Witness for C8: one "Sports " event on an empty table yields count 1
for "sports". -/
theorem process_message_increments_witness :
    lookupCount (process_message "category"
        (.pdict [("category", .jstr "Sports ")]) []) "sports" = 1 := by
  have h := process_message_increments "category"
      (.pdict [("category", .jstr "Sports ")])
      [("category", .jstr "Sports ")] [] rfl (by simp)
  have he : extract_category "category" [("category", JsonVal.jstr "Sports ")]
      = "sports" := rfl
  rw [he] at h
  exact h.1

/-- C9: a textual payload that fails JSON parsing leaves the frequency
table unchanged (the decode error is caught, so nothing propagates to
the consume loop; `process_message` is total in this model). -/
theorem process_message_bad_json (field : String) (counts : Counts) :
    process_message field (.ptext none) counts = counts := rfl

/-- C10: the payload that parses to the empty mapping is dropped by the
`if not msg` truthiness check: the table is unchanged and "unknown" is
not incremented. -/
theorem process_message_empty_dict (field : String) (counts : Counts) :
    process_message field (.pdict []) counts = counts := rfl

/-- C3 (code evidence): `_coerce_to_dict` returns a parsed non-mapping
JSON value as-is instead of `None`, contrary to its declared `dict | None`
contract; the message is nonetheless dropped in `process_message` (the
`AttributeError` from `msg.get` is caught), leaving the table unchanged. -/
theorem coerce_returns_non_mapping :
    coerce_to_dict (.ptext (some (.jarr [.jnum 1, .jnum 2])))
        = some (.jarr [.jnum 1, .jnum 2])
      ∧ process_message "category"
          (.ptext (some (.jarr [.jnum 1, .jnum 2]))) [("x", 3)]
        = [("x", 3)] :=
  ⟨rfl, rfl⟩

end Buzzline
